import Mathlib

/-!
Verification development for the SOAP-calculator core of the
AgenticCalculator repository (src/method3_SOAP.py, src/run_benchmark.py).

The Python code is shallowly embedded: strings become `List Char`,
Python floats become `ℚ` (every numeric value the remote service produces
is an integer, so the rational model is exact on the data the program
handles), the remote SOAP service becomes an oracle `Service` indexed by
the number of network calls made so far, and the two regex searches of
`evaluate_expression` are modelled by direct leftmost-match functions
(the patterns `\(([^()]+)\)` and `([\d.]+)\s*([+\-*/])\s*([\d.]+)`
contain no constructs that backtrack past a maximal character-class run,
so greedy maximal-run matching is exact).
-/

set_option maxRecDepth 4096

/-- Characters treated as whitespace by Python `str.strip` / `\s` (ASCII range). -/
def isPySpace (c : Char) : Bool :=
  c = ' ' || c = '\t' || c = '\n' || c = '\x0d' || c = '\x0b' || c = '\x0c'

/-- Characters matched by the regex class `[\d.]`. -/
def isDigitDot (c : Char) : Bool := c.isDigit || c = '.'

/-- Characters matched by the regex class `[+\-*/]`. -/
def isOpChar (c : Char) : Bool := c = '+' || c = '-' || c = '*' || c = '/'

/-- Characters matched by the regex class `[^()]`. -/
def notParen (c : Char) : Bool := !(c = '(' || c = ')')

/-- Maximal run of characters satisfying `p` at the front of a list,
returned together with the remainder. -/
def takeRun (p : Char → Bool) : List Char → List Char × List Char
  | [] => ([], [])
  | c :: cs =>
    if p c then
      let r := takeRun p cs
      (c :: r.1, r.2)
    else ([], c :: cs)

/-- Python `str.strip()`: drop whitespace from both ends. -/
def pyStrip (l : List Char) : List Char :=
  ((l.dropWhile isPySpace).reverse.dropWhile isPySpace).reverse

/-- Value of a list of decimal digit characters. -/
def digitsVal (l : List Char) : ℕ :=
  l.foldl (fun a c => a * 10 + (c.toNat - 48)) 0

/-- The decimal digit character for `k % 10`-style values. -/
def digitChar : ℕ → Char
  | 0 => '0' | 1 => '1' | 2 => '2' | 3 => '3' | 4 => '4'
  | 5 => '5' | 6 => '6' | 7 => '7' | 8 => '8' | _ => '9'

/-- Decimal digits of `n`, most significant first (`fuel ≥` digit count). -/
def natDigits : ℕ → ℕ → List Char
  | 0, _ => []
  | fuel + 1, n =>
    if n < 10 then [digitChar n]
    else natDigits fuel (n / 10) ++ [digitChar (n % 10)]

/-- Python `str` of a natural number. -/
def natStr (n : ℕ) : List Char := natDigits (n + 1) n

/-- Python `str` of an integer (minus sign for negatives). -/
def intStr (n : ℤ) : List Char :=
  if n < 0 then '-' :: natStr (-n).toNat else natStr n.toNat

/-- `len(str(n))` for a Python int `n`. -/
def intStrLen (n : ℤ) : ℕ := (intStr n).length

/-- Python `str` of `float(n)` for an integer-valued float:
`str(5.0) = "5.0"`, `str(-3.0) = "-3.0"`.  (Every value substituted back
into the expression at src/method3_SOAP.py line 140 is `float(r)` for an
integer `r` returned by the service, so this covers all cases reached.) -/
def floatIntStr (n : ℤ) : List Char := intStr n ++ ['.', '0']

/-- Floor of a rational number as an integer. -/
def ratFloor (q : ℚ) : ℤ := Int.fdiv q.num q.den

/-- Ten to an integer power, as a rational. -/
def qpow10 (k : ℤ) : ℚ :=
  if 0 ≤ k then (10 : ℚ) ^ k.toNat else 1 / (10 : ℚ) ^ (-k).toNat

/-- Exponent part of a Python float literal: optional sign then a
nonempty digit run that must end the string. -/
def pyExp (s : List Char) : Option ℤ :=
  match s with
  | [] => none
  | c :: rest =>
    let sb : Bool × List Char :=
      if c = '+' then (false, rest)
      else if c = '-' then (true, rest)
      else (false, c :: rest)
    let dr := takeRun Char.isDigit sb.2
    if dr.1.isEmpty || !dr.2.isEmpty then none
    else some (if sb.1 then -(digitsVal dr.1 : ℤ) else (digitsVal dr.1 : ℤ))

/-- Unsigned body of a Python float literal: digits with an optional
single decimal point (at least one digit overall) and an optional
exponent.  Forms not produced by this program (inf, nan, underscore
separators) are not modelled. -/
def pyFloatBody (s : List Char) : Option ℚ :=
  match (takeRun Char.isDigit s).2 with
  | [] =>
    if (takeRun Char.isDigit s).1.isEmpty then none
    else some (digitsVal (takeRun Char.isDigit s).1 : ℚ)
  | e0 :: r2 =>
    if e0 = '.' then
      if (takeRun Char.isDigit s).1.isEmpty && (takeRun Char.isDigit r2).1.isEmpty then none
      else
        match (takeRun Char.isDigit r2).2 with
        | [] =>
          some ((digitsVal (takeRun Char.isDigit s).1 : ℚ) +
            (digitsVal (takeRun Char.isDigit r2).1 : ℚ) / 10 ^ (takeRun Char.isDigit r2).1.length)
        | e :: r4 =>
          if e = 'e' || e = 'E' then
            (pyExp r4).map (fun k =>
              ((digitsVal (takeRun Char.isDigit s).1 : ℚ) +
                (digitsVal (takeRun Char.isDigit r2).1 : ℚ) /
                  10 ^ (takeRun Char.isDigit r2).1.length) * qpow10 k)
          else none
    else if (e0 = 'e' || e0 = 'E') && !(takeRun Char.isDigit s).1.isEmpty then
      (pyExp r2).map (fun k => (digitsVal (takeRun Char.isDigit s).1 : ℚ) * qpow10 k)
    else none

/-- Python `float(s)` on a string: strip whitespace, optional sign,
then the numeric body.  `none` models a raised `ValueError`. -/
def pyFloat (s : List Char) : Option ℚ :=
  match pyStrip s with
  | [] => none
  | c :: rest =>
    if c = '+' then pyFloatBody rest
    else if c = '-' then (pyFloatBody rest).map (fun x => -x)
    else pyFloatBody (c :: rest)

/-- Match of the regex `\(([^()]+)\)` anchored at the start of `s`:
returns the group-1 text and the remainder after the closing paren. -/
def matchParenAt (s : List Char) : Option (List Char × List Char) :=
  match s with
  | [] => none
  | c :: cs =>
    if c = '(' then
      if (takeRun notParen cs).1.isEmpty then none
      else
        match (takeRun notParen cs).2 with
        | [] => none
        | d :: rest => if d = ')' then some ((takeRun notParen cs).1, rest) else none
    else none

/-- Leftmost match of `\(([^()]+)\)` in `s`
(src/method3_SOAP.py line 107): returns the text before the match, the
group-1 text, and the text after the match. -/
def searchParen : List Char → Option (List Char × List Char × List Char)
  | [] => none
  | c :: cs =>
    match matchParenAt (c :: cs) with
    | some pr => some ([], pr.1, pr.2)
    | none =>
      match searchParen cs with
      | some pis => some (c :: pis.1, pis.2.1, pis.2.2)
      | none => none

/-- Match of `([\d.]+)\s*([+\-*/])\s*([\d.]+)` anchored at the start of
`s`: returns groups 1-3 and the remainder after the match.  The three
greedy pieces never backtrack usefully (a shorter `[\d.]+` run leaves a
digit or dot where an operator or `)` is required), so maximal-run
matching is exact. -/
def matchTripleAt (s : List Char) : Option (List Char × Char × List Char × List Char) :=
  if (takeRun isDigitDot s).1.isEmpty then none
  else
    match (takeRun isPySpace (takeRun isDigitDot s).2).2 with
    | [] => none
    | c :: r3 =>
      if isOpChar c then
        if (takeRun isDigitDot (takeRun isPySpace r3).2).1.isEmpty then none
        else some ((takeRun isDigitDot s).1, c,
          (takeRun isDigitDot (takeRun isPySpace r3).2).1,
          (takeRun isDigitDot (takeRun isPySpace r3).2).2)
      else none

/-- Leftmost match of `([\d.]+)\s*([+\-*/])\s*([\d.]+)` in `s`
(src/method3_SOAP.py lines 114 and 146): returns the text before the
match, the triple `(operand A, operator, operand B)`, and the text after
the match. -/
def searchTriple : List Char → Option (List Char × (List Char × Char × List Char) × List Char)
  | [] => none
  | c :: cs =>
    match matchTripleAt (c :: cs) with
    | some r => some ([], (r.1, r.2.1, r.2.2.1), r.2.2.2)
    | none =>
      match searchTriple cs with
      | some r => some (c :: r.1, r.2.1, r.2.2)
      | none => none

/-- Outcome of one raw network exchange with the remote service:
either the integer the service computed, or a SOAP fault / transport
exception (both handled identically at src/method3_SOAP.py lines 76-81). -/
inductive RemoteOutcome where
  | ok (r : ℤ)
  | fault
deriving DecidableEq

/-- The remote SOAP service as an oracle: argument 1 is the index of the
network call (number of network calls the process made before this one),
so that stubs like "fail twice then succeed" are expressible; then the
operator and the two integer operands. -/
def Service : Type := ℕ → Char → ℤ → ℤ → RemoteOutcome

/-- Python `int(round(x))`: round half to even (banker's rounding). -/
def pyRound (q : ℚ) : ℤ :=
  let f := ratFloor q
  let frac := q - (f : ℚ)
  if frac < 1 / 2 then f
  else if 1 / 2 < frac then f + 1
  else if f % 2 = 0 then f else f + 1

/-- Return value of `call_soap_operation`
(src/method3_SOAP.py line 43): result (`none` = Python `None`),
request bytes, response bytes, HTTP-like status, fault flag; plus
`usedNetwork`, instrumenting whether the oracle was consulted (the code's
short-circuit branches return before any network traffic). -/
structure CallOut where
  result : Option ℤ
  reqB : ℕ
  respB : ℕ
  status : ℕ
  fault : ℕ
  usedNetwork : Bool
deriving DecidableEq

/-- Embedding of `call_soap_operation(op, a, b)`
(src/method3_SOAP.py lines 40-81).  Operands are rounded to integers;
`/` with rounded divisor 0 returns `(None, 0, 0, 500, 1)` locally;
an operator outside `+ - * /` returns `(None, 0, 0, 400, 1)` locally;
otherwise the service is consulted: success yields the result with
estimated byte sizes `300 + len(str(a)) + len(str(b))` and
`250 + len(str(r))`, and a fault/exception yields `(None, 200, 100, 500, 1)`
(lines 69-81; the network part is the helper `remoteCall` below). -/
def remoteCall (out : RemoteOutcome) (int_a int_b : ℤ) : CallOut :=
  match out with
  | .ok r =>
    ⟨some r, 300 + intStrLen int_a + intStrLen int_b, 250 + intStrLen r, 200, 0, true⟩
  | .fault => ⟨none, 200, 100, 500, 1, true⟩

def call_soap_operation (svc : Service) (netIdx : ℕ) (op : Char) (a b : ℚ) : CallOut :=
  if op = '+' then remoteCall (svc netIdx '+' (pyRound a) (pyRound b)) (pyRound a) (pyRound b)
  else if op = '-' then remoteCall (svc netIdx '-' (pyRound a) (pyRound b)) (pyRound a) (pyRound b)
  else if op = '*' then remoteCall (svc netIdx '*' (pyRound a) (pyRound b)) (pyRound a) (pyRound b)
  else if op = '/' then
    if pyRound b = 0 then ⟨none, 0, 0, 500, 1, false⟩
    else remoteCall (svc netIdx '/' (pyRound a) (pyRound b)) (pyRound a) (pyRound b)
  else ⟨none, 0, 0, 400, 1, false⟩

/-- The running metric accumulators of `evaluate_expression`
(src/method3_SOAP.py lines 95-100), plus the instrumented network-call
count `netCalls` (number of times the service oracle was consulted). -/
structure Metrics where
  totalReq : ℕ
  totalResp : ℕ
  soapCalls : ℕ
  httpStatus : ℕ
  faultFlag : ℕ
  retryCount : ℕ
  netCalls : ℕ
deriving DecidableEq

/-- Initial metric state (lines 95-100: totals 0, status 200, fault 0). -/
def initMetrics : Metrics := ⟨0, 0, 0, 200, 0, 0, 0⟩

/-- The per-attempt bookkeeping of the retry loops
(src/method3_SOAP.py lines 124-128 and 154-158): add the byte estimates,
bump the call count, overwrite status and fault flag, and count a
network call when one was made. -/
def applyCall (st : Metrics) (c : CallOut) : Metrics :=
  ⟨st.totalReq + c.reqB, st.totalResp + c.respB, st.soapCalls + 1, c.status, c.fault,
   st.retryCount, st.netCalls + (if c.usedNetwork then 1 else 0)⟩

/-- `retry_count += 1` (src/method3_SOAP.py lines 132 and 162). -/
def bumpRetry (st : Metrics) : Metrics :=
  ⟨st.totalReq, st.totalResp, st.soapCalls, st.httpStatus, st.faultFlag,
   st.retryCount + 1, st.netCalls⟩

/-- `MAX_RETRIES` (src/method3_SOAP.py line 25). -/
def MAX_RETRIES : ℕ := 3

/-- Embedding of the retry loops `for attempt in range(MAX_RETRIES)`
(src/method3_SOAP.py lines 122-133 and 152-163): call, accumulate, stop
on success; on failure bump the retry counter and try again (the
`time.sleep` backoff has no observable effect in this model). -/
def retryLoop (svc : Service) (op : Char) (a b : ℚ) : ℕ → Metrics → Option ℤ × Metrics
  | 0, st => (none, st)
  | fuel + 1, st =>
    match (call_soap_operation svc st.netCalls op a b).result with
    | some r => (some r, applyCall st (call_soap_operation svc st.netCalls op a b))
    | none =>
      retryLoop svc op a b fuel
        (bumpRetry (applyCall st (call_soap_operation svc st.netCalls op a b)))

/-- The sequence of dispatch outcomes the retry loop observes: one entry
per attempt made, stopping after the first success.  This is a model
observation mirroring `retryLoop` step for step (src/method3_SOAP.py
lines 122-133); it is used to state that the loop's byte totals and call
count accumulate over every attempt, not just the final one. -/
def attemptCalls (svc : Service) (op : Char) (a b : ℚ) : ℕ → Metrics → List CallOut
  | 0, _ => []
  | fuel + 1, st =>
    call_soap_operation svc st.netCalls op a b ::
      (match (call_soap_operation svc st.netCalls op a b).result with
       | some _ => []
       | none =>
         attemptCalls svc op a b fuel
           (bumpRetry (applyCall st (call_soap_operation svc st.netCalls op a b))))

/-- Outcome of the parenthesis-reduction `while` loop
(src/method3_SOAP.py lines 105-143). -/
inductive LoopOut where
  | done (expr : List Char) (m : Metrics)
  | earlyRet (m : Metrics)
  | exn
  | outOfFuel
deriving DecidableEq

/-- Embedding of the `while '(' in expr` loop
(src/method3_SOAP.py lines 105-143), fuel-indexed.  Each pass finds the
leftmost innermost bracket; if its (stripped) content holds an
operand-operator-operand triple, the triple is dispatched with retries
and the WHOLE bracketed span (parens included) is replaced by
`str(result)`; otherwise only the parens are stripped.  `earlyRet`
models the `return None, ...` after exhausted retries (line 137), `exn`
an uncaught `ValueError` from `float()` on a group such as `"."`
(lines 116-118), and `outOfFuel` is the model artifact proved
unreachable in the termination theorem. -/
def parenLoop (svc : Service) : ℕ → List Char → Metrics → LoopOut
  | 0, _, _ => .outOfFuel
  | fuel + 1, expr, st =>
    if '(' ∈ expr then
      match searchParen expr with
      | none => .done expr st
      | some (pre, innerRaw, suf) =>
        match searchTriple (pyStrip innerRaw) with
        | some (_, (aS, opC, bS), _) =>
          match pyFloat aS, pyFloat bS with
          | some a, some b =>
            match (retryLoop svc opC a b MAX_RETRIES st).1 with
            | some r =>
              parenLoop svc fuel (pre ++ floatIntStr r ++ suf)
                (retryLoop svc opC a b MAX_RETRIES st).2
            | none => .earlyRet (retryLoop svc opC a b MAX_RETRIES st).2
          | _, _ => .exn
        | none => parenLoop svc fuel (pre ++ pyStrip innerRaw ++ suf) st
    else .done expr st

/-- Result of `evaluate_expression`: a normal return carrying the
optional value and the metric tuple, an uncaught exception, or the
fuel-exhaustion artifact (proved unreachable). -/
inductive PyResult where
  | ret (result : Option ℚ) (m : Metrics)
  | exn
  | outOfFuel
deriving DecidableEq

/-- Embedding of the code after the `while` loop
(src/method3_SOAP.py lines 145-171): one final triple search over the
remaining string, dispatched with retries; otherwise `float(expr)` under
`try/except` (so a parse failure yields a `None` result, not an
exception). -/
def evalAfterLoop (svc : Service) (expr : List Char) (st : Metrics) : PyResult :=
  match searchTriple expr with
  | some (_, (aS, opC, bS), _) =>
    match pyFloat aS, pyFloat bS with
    | some a, some b =>
      match (retryLoop svc opC a b MAX_RETRIES st).1 with
      | some r => .ret (some (r : ℚ)) (retryLoop svc opC a b MAX_RETRIES st).2
      | none => .ret none (retryLoop svc opC a b MAX_RETRIES st).2
    | _, _ => .exn
  | none =>
    match pyFloat expr with
    | some v => .ret (some v) st
    | none => .ret none st

/-- Embedding of `evaluate_expression(equation)`
(src/method3_SOAP.py lines 84-171).  The fuel `count '(' + 1` bounds the
loop: each reduction removes one `(` (see the termination theorem). -/
def evaluate_expression (svc : Service) (equation : String) : PyResult :=
  match parenLoop svc ((pyStrip equation.data).count '(' + 1)
      (pyStrip equation.data) initMetrics with
  | .done e st => evalAfterLoop svc e st
  | .earlyRet st => .ret none st
  | .exn => .exn
  | .outOfFuel => .outOfFuel

/-- An ideal service: every operation succeeds on the first attempt with
the exact integer result (division truncating toward zero, as the
integer-only remote calculator does; no claim exercises division). -/
def exactService : Service := fun _ op a b =>
  match op with
  | '+' => .ok (a + b)
  | '-' => .ok (a - b)
  | '*' => .ok (a * b)
  | '/' => .ok (Int.tdiv a b)
  | _ => .fault

/-- A stub service that fails on network calls 0 and 1 and succeeds with
5 on every later call (the "fails on attempts 1-2, succeeds on attempt 3"
scenario of the spec). -/
def stubFailTwice : Service := fun i _ _ _ =>
  if i < 2 then .fault else .ok 5

/-- Embedding of the correctness check
(src/method3_SOAP.py lines 216-219 and src/run_benchmark.py lines 70-73):
`1 if (result is not None and abs(float(result) - float(expected)) < 1.0)
else 0` under `try/except`.  `result` is the evaluator output; `expected`
is `none` when `float()` on the dataset answer raises (the `and`
short-circuits on an absent result, and a raised exception also yields 0,
so both are the `none` branches). -/
def is_correct_flag (result : Option ℚ) (expected : Option ℚ) : ℕ :=
  match result with
  | none => 0
  | some r =>
    match expected with
    | none => 0
    | some e => if |r - e| < 1 then 1 else 0

/-- Insert into a sorted list of rationals. -/
def insertSorted (x : ℚ) : List ℚ → List ℚ
  | [] => [x]
  | y :: ys => if x ≤ y then x :: y :: ys else y :: insertSorted x ys

/-- Insertion sort on rationals. -/
def sortQ : List ℚ → List ℚ
  | [] => []
  | x :: xs => insertSorted x (sortQ xs)

/-- Model of `numpy.percentile(xs, q)` with the default linear
interpolation, as invoked at src/run_benchmark.py lines 117-118: for the
sorted samples a_0..a_(n-1) and position p = (q/100)(n-1), the result is
a_i + (p - floor p)(a_(i+1) - a_i) with i = floor p.  `none` models the
error on an empty sample. -/
def npPercentile (xs : List ℚ) (q : ℚ) : Option ℚ :=
  match xs with
  | [] => none
  | _ :: _ =>
    let s := sortQ xs
    let n := xs.length
    let pos := q / 100 * ((n : ℚ) - 1)
    let i := (ratFloor pos).toNat
    let frac := pos - ((ratFloor pos : ℤ) : ℚ)
    let lo := s.getD i 0
    let hi := s.getD (min (i + 1) (n - 1)) 0
    some (lo + frac * (hi - lo))

/-- Model of the pandas `('IsCorrect', 'mean')` aggregation
(src/run_benchmark.py line 112): arithmetic mean of the group values. -/
def listMean (xs : List ℚ) : Option ℚ :=
  match xs with
  | [] => none
  | _ :: _ => some (xs.sum / xs.length)

/-- Claim C1 (counterexample): the claim says an expression whose bracket
chains several operations, such as "(2+3+4)", leaves a malformed residual
and therefore fails to evaluate.  In fact line 140 of
src/method3_SOAP.py replaces the WHOLE parenthesized span (the span of
the paren regex match, not of the triple match), so "(2+3+4)" reduces to
"5.0" and evaluation SUCCEEDS with the value 5 after a single dispatch. -/
theorem c1_chained_bracket_counterexample :
    evaluate_expression exactService "(2+3+4)" =
      .ret (some 5) ⟨302, 251, 1, 200, 0, 0, 1⟩ := by with_unfolding_all rfl

/-- Claim C1 (amended): inside a bracket with multiple chained
operations only the first operand-operator-operand triple is dispatched,
and the replacement removes the entire bracketed span including the
unconsumed trailing operations; hence, when the remote service answers
the triple exactly, evaluation of "(2+3+4)" succeeds with the first
triple's value 5.0 after exactly one dispatch, silently discarding the
trailing "+4", rather than failing. -/
theorem c1_first_triple_consumes_bracket (svc : Service)
    (h : ∀ i op a b, svc i op a b = exactService i op a b) :
    evaluate_expression svc "(2+3+4)" =
      .ret (some 5) ⟨302, 251, 1, 200, 0, 0, 1⟩ := by
  have hs : svc = exactService :=
    funext fun i => funext fun op => funext fun a => funext fun b => h i op a b
  rw [hs]
  with_unfolding_all rfl

/-- Claim C1 (amended) witness at the exact service. -/
theorem c1_first_triple_consumes_bracket_witness :
    evaluate_expression exactService "(2+3+4)" =
      .ret (some 5) ⟨302, 251, 1, 200, 0, 0, 1⟩ :=
  c1_first_triple_consumes_bracket exactService (fun _ _ _ _ => rfl)

/-- Claim C2: for every division whose divisor rounds to the nearest
integer 0 — any dividend, any divisor with `pyRound b = 0`, any service
behavior, at any point of the run — the dispatch fails immediately and
locally with result `none`, status 500 and fault flag 1, zero byte
estimates, and without consulting the remote service (the check at
src/method3_SOAP.py lines 63-64 short-circuits before any network
traffic).  In particular, evaluating "(5/0)" fails with status 500 and
fault 1 and the service oracle is consulted zero times (`netCalls = 0`)
across all 3 retry attempts. -/
theorem c2_divide_by_zero_local :
    (∀ (svc : Service) (n : ℕ) (a b : ℚ), pyRound b = 0 →
      call_soap_operation svc n '/' a b = ⟨none, 0, 0, 500, 1, false⟩) ∧
    (∀ svc : Service, evaluate_expression svc "(5/0)" =
      .ret none ⟨0, 0, 3, 500, 1, 3, 0⟩) := by
  constructor
  · intro svc n a b h
    unfold call_soap_operation
    rw [if_neg (by decide), if_neg (by decide), if_neg (by decide), if_pos rfl,
      if_pos h]
  · intro svc
    with_unfolding_all rfl

/-- Claim C2 witness: divisor 0.4 (which rounds to 0) with dividend 9,
under the exact service at network index 7. -/
theorem c2_divide_by_zero_local_witness :
    pyRound (2 / 5 : ℚ) = 0 ∧
    call_soap_operation exactService 7 '/' 9 (2 / 5 : ℚ) =
      ⟨none, 0, 0, 500, 1, false⟩ :=
  ⟨by with_unfolding_all rfl,
   c2_divide_by_zero_local.1 exactService 7 9 (2 / 5) (by with_unfolding_all rfl)⟩

/-- For every dispatch, the retry loop's returned request/response byte
totals and call count are the starting totals plus the sum over ALL
attempts made (per `attemptCalls`), and at most `fuel` attempts are
made. -/
theorem retryLoop_accumulates (svc : Service) (op : Char) (a b : ℚ) :
    ∀ (fuel : ℕ) (st : Metrics),
      (retryLoop svc op a b fuel st).2.totalReq =
        st.totalReq + ((attemptCalls svc op a b fuel st).map CallOut.reqB).sum ∧
      (retryLoop svc op a b fuel st).2.totalResp =
        st.totalResp + ((attemptCalls svc op a b fuel st).map CallOut.respB).sum ∧
      (retryLoop svc op a b fuel st).2.soapCalls =
        st.soapCalls + (attemptCalls svc op a b fuel st).length ∧
      (attemptCalls svc op a b fuel st).length ≤ fuel := by
  intro fuel
  induction fuel with
  | zero => intro st; simp [retryLoop, attemptCalls]
  | succ n ih =>
    intro st
    unfold retryLoop attemptCalls
    rcases hres : (call_soap_operation svc st.netCalls op a b).result with _ | r <;>
      (try dsimp only)
    · obtain ⟨i1, i2, i3, i4⟩ :=
        ih (bumpRetry (applyCall st (call_soap_operation svc st.netCalls op a b)))
      refine ⟨?_, ?_, ?_, ?_⟩
      · rw [i1]
        simp only [bumpRetry, applyCall, List.map_cons, List.sum_cons]
        omega
      · rw [i2]
        simp only [bumpRetry, applyCall, List.map_cons, List.sum_cons]
        omega
      · rw [i3]
        simp only [bumpRetry, applyCall, List.length_cons]
        omega
      · simp only [List.length_cons]
        omega
    · refine ⟨?_, ?_, ?_, ?_⟩ <;>
        simp only [applyCall, List.map_cons, List.map_nil, List.sum_cons,
          List.sum_nil, List.length_cons, List.length_nil] <;>
        omega

/-- For every dispatch, if the retry loop ultimately fails then every
attempt failed and was retried: exactly `fuel` calls were made and the
retry counter rose by `fuel`. -/
theorem retryLoop_failure_exhausts (svc : Service) (op : Char) (a b : ℚ) :
    ∀ (fuel : ℕ) (st : Metrics),
      (retryLoop svc op a b fuel st).1 = none →
      (retryLoop svc op a b fuel st).2.soapCalls = st.soapCalls + fuel ∧
      (retryLoop svc op a b fuel st).2.retryCount = st.retryCount + fuel := by
  intro fuel
  induction fuel with
  | zero => intro st h; simp [retryLoop]
  | succ n ih =>
    intro st h
    unfold retryLoop at h ⊢
    rcases hres : (call_soap_operation svc st.netCalls op a b).result with _ | r <;>
      rw [hres] at h <;> (try dsimp only at h ⊢)
    · obtain ⟨i1, i2⟩ :=
        ih (bumpRetry (applyCall st (call_soap_operation svc st.netCalls op a b))) h
      constructor
      · rw [i1]
        simp only [bumpRetry, applyCall]
        omega
      · rw [i2]
        simp only [bumpRetry, applyCall]
        omega
    · simp at h

/-- Claim C3: for every single dispatch (any service, operator, operands
and starting state), any failure outcome — the deterministic
divide-by-zero and unknown-operator faults included, since the
quantification covers them — is retried up to 3 attempts in total
(attempt count is capped by the fuel, and an ultimately failed dispatch
makes exactly 3 calls with 3 retries), and the returned call count and
request/response byte totals accumulate across all attempts made, not
just the final one.  In particular, a service failing on attempts 1-2
and succeeding on attempt 3 yields 3 accumulated calls,
bytes 200+200+302 sent and 100+100+251 received, 2 retries, and the
success value 5; and the divide-by-zero fault is retried to exhaustion
under every service. -/
theorem c3_retry_accumulates_all_attempts :
    (∀ (svc : Service) (op : Char) (a b : ℚ) (st : Metrics),
      (retryLoop svc op a b MAX_RETRIES st).2.totalReq =
        st.totalReq + ((attemptCalls svc op a b MAX_RETRIES st).map CallOut.reqB).sum ∧
      (retryLoop svc op a b MAX_RETRIES st).2.totalResp =
        st.totalResp + ((attemptCalls svc op a b MAX_RETRIES st).map CallOut.respB).sum ∧
      (retryLoop svc op a b MAX_RETRIES st).2.soapCalls =
        st.soapCalls + (attemptCalls svc op a b MAX_RETRIES st).length ∧
      (attemptCalls svc op a b MAX_RETRIES st).length ≤ 3) ∧
    (∀ (svc : Service) (op : Char) (a b : ℚ) (st : Metrics),
      (retryLoop svc op a b MAX_RETRIES st).1 = none →
      (retryLoop svc op a b MAX_RETRIES st).2.soapCalls = st.soapCalls + 3 ∧
      (retryLoop svc op a b MAX_RETRIES st).2.retryCount = st.retryCount + 3) ∧
    retryLoop stubFailTwice '+' 2 3 3 initMetrics =
      (some 5, ⟨702, 451, 3, 200, 0, 2, 3⟩) ∧
    (∀ svc : Service, retryLoop svc '/' 5 0 3 initMetrics =
      (none, ⟨0, 0, 3, 500, 1, 3, 0⟩)) :=
  ⟨fun svc op a b st => retryLoop_accumulates svc op a b MAX_RETRIES st,
   fun svc op a b st h => retryLoop_failure_exhausts svc op a b MAX_RETRIES st h,
   by with_unfolding_all rfl, fun _ => by with_unfolding_all rfl⟩

/-- Claim C3 witness: the failure-exhaustion part applied to the
divide-by-zero dispatch under the exact service. -/
theorem c3_retry_accumulates_all_attempts_witness :
    (retryLoop exactService '/' 5 0 MAX_RETRIES initMetrics).1 = none ∧
    ((retryLoop exactService '/' 5 0 MAX_RETRIES initMetrics).2.soapCalls =
        initMetrics.soapCalls + 3 ∧
      (retryLoop exactService '/' 5 0 MAX_RETRIES initMetrics).2.retryCount =
        initMetrics.retryCount + 3) :=
  ⟨by with_unfolding_all rfl,
   c3_retry_accumulates_all_attempts.2.1 exactService '/' 5 0 initMetrics
     (by with_unfolding_all rfl)⟩

/-- Claim C4: assuming every remote operation succeeds on its first
attempt and returns the exact integer result, evaluating "((2+3)*4)"
issues exactly two dispatches (`soapCalls = 2`, `netCalls = 2`, zero
retries) — the inner 2+3 yielding 5, then 5*4 yielding 20 — and returns
the final value 20.0. -/
theorem c4_nested_two_dispatches (svc : Service)
    (h : ∀ i op a b, svc i op a b = exactService i op a b) :
    evaluate_expression svc "((2+3)*4)" =
      .ret (some 20) ⟨604, 503, 2, 200, 0, 0, 2⟩ := by
  have hs : svc = exactService :=
    funext fun i => funext fun op => funext fun a => funext fun b => h i op a b
  rw [hs]
  with_unfolding_all rfl

/-- Claim C4 witness at the exact service. -/
theorem c4_nested_two_dispatches_witness :
    evaluate_expression exactService "((2+3)*4)" =
      .ret (some 20) ⟨604, 503, 2, 200, 0, 0, 2⟩ :=
  c4_nested_two_dispatches exactService (fun _ _ _ _ => rfl)

/-- Claim C7: for every operator outside `+ - * /`, the dispatcher
returns immediately with status 400 and fault flag 1, a `none` result,
zero byte estimates, and without consulting the remote service. -/
theorem c7_unknown_operator_local (svc : Service) (n : ℕ) (a b : ℚ) (op : Char)
    (h1 : op ≠ '+') (h2 : op ≠ '-') (h3 : op ≠ '*') (h4 : op ≠ '/') :
    call_soap_operation svc n op a b = ⟨none, 0, 0, 400, 1, false⟩ := by
  unfold call_soap_operation
  simp only [if_neg h1, if_neg h2, if_neg h3, if_neg h4]

/-- Claim C7 witness at the concrete operator '%'. -/
theorem c7_unknown_operator_local_witness :
    call_soap_operation exactService 0 '%' 1 2 = ⟨none, 0, 0, 400, 1, false⟩ :=
  c7_unknown_operator_local exactService 0 1 2 '%'
    (by decide) (by decide) (by decide) (by decide)

/-- Shared computation lemma: the floor of the rational 0 is 0. -/
theorem ratFloor_zero : ratFloor 0 = 0 := by with_unfolding_all rfl

/-- Claim C6: a trial is marked correct (IsCorrect = 1) exactly when
evaluation produced a value and the absolute difference between that
value and the parsed expected answer is strictly below the tolerance
1.0; an absent result, a difference of 1.0 or more, or a non-numeric
expected value yields flag 0 (and the flag is always 0 or 1). -/
theorem c6_tolerance_flag (res exp : Option ℚ) :
    (is_correct_flag res exp = 1 ↔
      ∃ r e, res = some r ∧ exp = some e ∧ |r - e| < 1) ∧
    (is_correct_flag res exp = 0 ∨ is_correct_flag res exp = 1) := by
  rcases res with _ | r
  · simp [is_correct_flag]
  rcases exp with _ | e
  · simp [is_correct_flag]
  by_cases h : |r - e| < 1
  · simp [is_correct_flag, h]
  · simp [is_correct_flag, h]

/-- Claim C8: the percentile aggregation on a single-sample group (N=1,
a single-epoch run) returns that sample for both the 95th and the 99th
percentile, without error; and the mean correctness over the flags
[1, 0, 1] is exactly 2/3. -/
theorem c8_single_sample_and_mean :
    (∀ x : ℚ, npPercentile [x] 95 = some x ∧ npPercentile [x] 99 = some x) ∧
    listMean [1, 0, 1] = some (2 / 3) := by
  refine ⟨fun x => ?_, by with_unfolding_all rfl⟩
  constructor <;>
    · simp only [npPercentile, sortQ, insertSorted, List.length_cons, List.length_nil]
      norm_num [ratFloor_zero]

/-- The characters of the run taken by `takeRun` satisfy the predicate. -/
theorem takeRun_mem (p : Char → Bool) (l : List Char) (c : Char)
    (h : c ∈ (takeRun p l).1) : p c = true := by
  induction l with
  | nil => simp [takeRun] at h
  | cons d ds ih =>
    by_cases hpd : p d = true
    · simp only [takeRun, if_pos hpd] at h
      rcases List.mem_cons.mp h with h1 | h2
      · exact h1 ▸ hpd
      · exact ih h2
    · simp [takeRun, if_neg hpd] at h

/-- `takeRun` splits its input into the run and the remainder. -/
theorem takeRun_eq_append (p : Char → Bool) (l : List Char) :
    (takeRun p l).1 ++ (takeRun p l).2 = l := by
  induction l with
  | nil => rfl
  | cons d ds ih =>
    by_cases hpd : p d = true
    · simp only [takeRun, if_pos hpd, List.cons_append, ih]
    · simp [takeRun, if_neg hpd]

/-- Stripping whitespace only removes characters. -/
theorem pyStrip_mem (l : List Char) (c : Char) (h : c ∈ pyStrip l) : c ∈ l := by
  unfold pyStrip at h
  have h1 := (List.dropWhile_sublist _).subset (List.mem_reverse.mp h)
  exact (List.dropWhile_sublist _).subset (List.mem_reverse.mp h1)

/-- The operand groups of an anchored triple match consist of `[\d.]`
characters. -/
theorem matchTripleAt_groups (s aS bS rest : List Char) (opC : Char)
    (h : matchTripleAt s = some (aS, opC, bS, rest)) :
    (∀ c ∈ aS, isDigitDot c = true) ∧ (∀ c ∈ bS, isDigitDot c = true) := by
  unfold matchTripleAt at h
  by_cases he : (takeRun isDigitDot s).1.isEmpty = true
  · rw [if_pos he] at h; simp at h
  rw [if_neg he] at h
  rcases hr2 : (takeRun isPySpace (takeRun isDigitDot s).2).2 with _ | ⟨d, r3⟩ <;>
    rw [hr2] at h <;> dsimp only at h
  · simp at h
  by_cases hop : isOpChar d = true
  · rw [if_pos hop] at h
    by_cases hbe : (takeRun isDigitDot (takeRun isPySpace r3).2).1.isEmpty = true
    · rw [if_pos hbe] at h; simp at h
    · rw [if_neg hbe] at h
      simp only [Option.some.injEq, Prod.mk.injEq] at h
      obtain ⟨h1, h2, h3, h4⟩ := h
      subst h1 h3
      exact ⟨fun c hc => takeRun_mem _ _ _ hc, fun c hc => takeRun_mem _ _ _ hc⟩
  · rw [if_neg hop] at h; simp at h

/-- The operand groups of the leftmost triple match consist of `[\d.]`
characters. -/
theorem searchTriple_groups (s : List Char) :
    ∀ pre aS bS suf : List Char, ∀ opC : Char,
      searchTriple s = some (pre, (aS, opC, bS), suf) →
      (∀ c ∈ aS, isDigitDot c = true) ∧ (∀ c ∈ bS, isDigitDot c = true) := by
  induction s with
  | nil => intro pre aS bS suf opC h; simp [searchTriple] at h
  | cons c cs ih =>
    intro pre aS bS suf opC h
    simp only [searchTriple] at h
    rcases hm : matchTripleAt (c :: cs) with _ | ⟨ma, mop, mb, mr⟩ <;> rw [hm] at h <;>
      dsimp only at h
    · rcases hs : searchTriple cs with _ | ⟨p2, ⟨a2, op2, b2⟩, s2⟩ <;> rw [hs] at h <;>
        dsimp only at h
      · simp at h
      · simp only [Option.some.injEq, Prod.mk.injEq] at h
        obtain ⟨h1, ⟨h2, h3, h4⟩, h5⟩ := h
        subst h2 h4
        exact ih p2 a2 b2 s2 op2 hs
    · simp only [Option.some.injEq, Prod.mk.injEq] at h
      obtain ⟨h1, ⟨h2, h3, h4⟩, h5⟩ := h
      subst h2 h4
      exact matchTripleAt_groups (c :: cs) ma mb mr mop hm


/-- `qpow10` is nonnegative. -/
theorem qpow10_nonneg (k : ℤ) : 0 ≤ qpow10 k := by
  unfold qpow10
  split <;> positivity

/-- The unsigned float body never produces a negative value. -/
theorem pyFloatBody_nonneg (s : List Char) (x : ℚ) (h : pyFloatBody s = some x) :
    0 ≤ x := by
  unfold pyFloatBody at h
  rcases hr : (takeRun Char.isDigit s).2 with _ | ⟨e0, r2⟩ <;> rw [hr] at h <;>
    dsimp only at h
  · by_cases he : (takeRun Char.isDigit s).1.isEmpty = true
    · rw [if_pos he] at h; simp at h
    · rw [if_neg he] at h
      obtain hx : ((digitsVal (takeRun Char.isDigit s).1 : ℚ)) = x := by simpa using h
      rw [← hx]; positivity
  · by_cases hdot : e0 = '.'
    · rw [if_pos hdot] at h
      by_cases hb : ((takeRun Char.isDigit s).1.isEmpty && (takeRun Char.isDigit r2).1.isEmpty) = true
      · rw [if_pos hb] at h; simp at h
      · rw [if_neg hb] at h
        rcases hr3 : (takeRun Char.isDigit r2).2 with _ | ⟨e2, r4⟩ <;> rw [hr3] at h <;>
          dsimp only at h
        · obtain hx : (digitsVal (takeRun Char.isDigit s).1 : ℚ) +
              (digitsVal (takeRun Char.isDigit r2).1 : ℚ) /
                10 ^ (takeRun Char.isDigit r2).1.length = x := by
            simpa using h
          rw [← hx]; positivity
        · by_cases he2 : (e2 = 'e' || e2 = 'E') = true
          · rw [if_pos he2] at h
            rcases hpe : pyExp r4 with _ | k <;> rw [hpe] at h
            · simp at h
            · obtain hx : ((digitsVal (takeRun Char.isDigit s).1 : ℚ) +
                  (digitsVal (takeRun Char.isDigit r2).1 : ℚ) /
                    10 ^ (takeRun Char.isDigit r2).1.length) * qpow10 k = x := by
                simpa using h
              rw [← hx]
              have hq := qpow10_nonneg k
              positivity
          · rw [if_neg he2] at h; simp at h
    · rw [if_neg hdot] at h
      by_cases hee : ((e0 = 'e' || e0 = 'E') && !(takeRun Char.isDigit s).1.isEmpty) = true
      · rw [if_pos hee] at h
        rcases hpe : pyExp r2 with _ | k <;> rw [hpe] at h
        · simp at h
        · obtain hx : (digitsVal (takeRun Char.isDigit s).1 : ℚ) * qpow10 k = x := by
            simpa using h
          rw [← hx]
          have hq := qpow10_nonneg k
          positivity
      · rw [if_neg hee] at h; simp at h

/-- A string of `[\d.]` characters parses, when it parses at all, to a
nonnegative value: the leading character is never a sign. -/
theorem pyFloat_digitDot_nonneg (s : List Char) (hs : ∀ c ∈ s, isDigitDot c = true)
    (x : ℚ) (h : pyFloat s = some x) : 0 ≤ x := by
  unfold pyFloat at h
  rcases hps : pyStrip s with _ | ⟨c, rest⟩ <;> rw [hps] at h <;> dsimp only at h
  · simp at h
  · have hc : isDigitDot c = true := hs c (pyStrip_mem s c (hps ▸ List.mem_cons_self c rest))
    have hcp : ¬(c = '+') := fun hcp => by subst hcp; simp [isDigitDot] at hc
    have hcm : ¬(c = '-') := fun hcm => by subst hcm; simp [isDigitDot] at hc
    rw [if_neg hcp, if_neg hcm] at h
    exact pyFloatBody_nonneg _ _ h

/-- Claim C9: every operand pair submitted to a remote dispatch during
expression reduction is non-negative: the operand pattern `[\d.]+`
matches only unsigned numerals (digits and dots), so a leading minus
sign — e.g. on a negative intermediate result substituted back into the
expression — is never part of a parsed operand, and any operand that
parses at all parses to a nonnegative value. -/
theorem c9_operands_unsigned (s pre aS bS suf : List Char) (opC : Char)
    (h : searchTriple s = some (pre, (aS, opC, bS), suf)) :
    (∀ c ∈ aS, isDigitDot c = true) ∧ (∀ c ∈ bS, isDigitDot c = true) ∧
    (∀ x : ℚ, pyFloat aS = some x → 0 ≤ x) ∧
    (∀ x : ℚ, pyFloat bS = some x → 0 ≤ x) := by
  obtain ⟨ha, hb⟩ := searchTriple_groups s pre aS bS suf opC h
  exact ⟨ha, hb, fun x hx => pyFloat_digitDot_nonneg aS ha x hx,
    fun x hx => pyFloat_digitDot_nonneg bS hb x hx⟩

/-- Claim C9 witness on "-3.0+4": the minus sign is left out of the
matched operand, which parses to the nonnegative 3.0. -/
theorem c9_operands_unsigned_witness :
    searchTriple "-3.0+4".data =
      some ("-".data, ("3.0".data, '+', "4".data), []) ∧
    ((∀ c ∈ "3.0".data, isDigitDot c = true) ∧ (∀ c ∈ "4".data, isDigitDot c = true) ∧
     (∀ x : ℚ, pyFloat "3.0".data = some x → 0 ≤ x) ∧
     (∀ x : ℚ, pyFloat "4".data = some x → 0 ≤ x)) :=
  ⟨by with_unfolding_all rfl,
   c9_operands_unsigned "-3.0+4".data "-".data "3.0".data "4".data [] '+'
     (by with_unfolding_all rfl)⟩

/-- Both arms of a remote exchange record that the network was used. -/
theorem remoteCall_network (o : RemoteOutcome) (x y : ℤ) :
    (remoteCall o x y).usedNetwork = true := by
  cases o <;> rfl

/-- A dispatch that produced a value necessarily consulted the network. -/
theorem call_success_network (svc : Service) (n : ℕ) (op : Char) (a b : ℚ) (r : ℤ)
    (h : (call_soap_operation svc n op a b).result = some r) :
    (call_soap_operation svc n op a b).usedNetwork = true := by
  unfold call_soap_operation at h ⊢
  split_ifs at h ⊢ <;> exact remoteCall_network _ _ _

/-- Claim C5: for every expression containing no parenthesis whose
(stripped) text contains an operand-operator-operand triple with
parseable operands, if the first dispatch attempt succeeds then
evaluation returns that dispatch's value after exactly one soap call,
one network call and zero retries. -/
theorem c5_single_dispatch (svc : Service) (e : String)
    (pre aS bS suf : List Char) (opC : Char) (a b : ℚ) (r : ℤ)
    (hnp : '(' ∉ e.data)
    (hT : searchTriple (pyStrip e.data) = some (pre, (aS, opC, bS), suf))
    (ha : pyFloat aS = some a) (hb : pyFloat bS = some b)
    (hok : (call_soap_operation svc 0 opC a b).result = some r) :
    evaluate_expression svc e =
      .ret (some (r : ℚ)) (applyCall initMetrics (call_soap_operation svc 0 opC a b)) ∧
    (applyCall initMetrics (call_soap_operation svc 0 opC a b)).soapCalls = 1 ∧
    (applyCall initMetrics (call_soap_operation svc 0 opC a b)).retryCount = 0 ∧
    (applyCall initMetrics (call_soap_operation svc 0 opC a b)).netCalls = 1 := by
  have hnp' : '(' ∉ pyStrip e.data := fun hm => hnp (pyStrip_mem _ _ hm)
  have hcount : (pyStrip e.data).count '(' = 0 := List.count_eq_zero.mpr hnp'
  have h0 : initMetrics.netCalls = 0 := rfl
  have hloop : parenLoop svc (0 + 1) (pyStrip e.data) initMetrics
      = .done (pyStrip e.data) initMetrics := by
    simp only [parenLoop]
    rw [if_neg hnp']
  have hretry : retryLoop svc opC a b MAX_RETRIES initMetrics =
      (some r, applyCall initMetrics (call_soap_operation svc 0 opC a b)) := by
    show retryLoop svc opC a b (2 + 1) initMetrics = _
    simp only [retryLoop]
    rw [h0, hok]
  refine ⟨?_, rfl, rfl, ?_⟩
  · unfold evaluate_expression
    rw [hcount, hloop]
    dsimp only
    unfold evalAfterLoop
    rw [hT]
    dsimp only
    rw [ha, hb]
    dsimp only
    rw [hretry]
  · have hnet := call_success_network svc 0 opC a b r hok
    show initMetrics.netCalls +
      (if (call_soap_operation svc 0 opC a b).usedNetwork then 1 else 0) = 1
    rw [hnet]
    rfl

/-- Claim C5 witness: "2+3" under the exact service. -/
theorem c5_single_dispatch_witness :
    evaluate_expression exactService "2+3" =
      .ret (some ((5 : ℤ) : ℚ))
        (applyCall initMetrics (call_soap_operation exactService 0 '+' 2 3)) ∧
    (applyCall initMetrics (call_soap_operation exactService 0 '+' 2 3)).soapCalls = 1 ∧
    (applyCall initMetrics (call_soap_operation exactService 0 '+' 2 3)).retryCount = 0 ∧
    (applyCall initMetrics (call_soap_operation exactService 0 '+' 2 3)).netCalls = 1 :=
  c5_single_dispatch exactService "2+3" [] "2".data "3".data [] '+' 2 3 5
    (by decide) (by with_unfolding_all rfl) (by with_unfolding_all rfl)
    (by with_unfolding_all rfl) (by with_unfolding_all rfl)

/-- An anchored paren match decomposes its input as
`'(' inner ')' rest`, and the group contains no parentheses. -/
theorem matchParenAt_eq (s inner rest : List Char)
    (h : matchParenAt s = some (inner, rest)) :
    s = '(' :: (inner ++ ')' :: rest) ∧ ∀ c ∈ inner, notParen c = true := by
  rcases s with _ | ⟨c, cs⟩
  · simp [matchParenAt] at h
  · unfold matchParenAt at h
    dsimp only at h
    by_cases hc : c = '('
    · rw [if_pos hc] at h
      by_cases he : (takeRun notParen cs).1.isEmpty = true
      · rw [if_pos he] at h; simp at h
      · rw [if_neg he] at h
        rcases hr : (takeRun notParen cs).2 with _ | ⟨d, rest'⟩ <;> rw [hr] at h <;>
          dsimp only at h
        · simp at h
        · by_cases hd : d = ')'
          · rw [if_pos hd] at h
            simp only [Option.some.injEq, Prod.mk.injEq] at h
            obtain ⟨h1, h2⟩ := h
            subst h1 h2 hc hd
            refine ⟨?_, fun ch hch => takeRun_mem _ _ _ hch⟩
            have happ := takeRun_eq_append notParen cs
            rw [hr] at happ
            conv_lhs => rw [← happ]
          · rw [if_neg hd] at h; simp at h
    · rw [if_neg hc] at h; simp at h

/-- The leftmost paren match decomposes its input as
`pre '(' inner ')' suf`, and the group contains no parentheses. -/
theorem searchParen_eq (s : List Char) :
    ∀ pre inner suf : List Char, searchParen s = some (pre, inner, suf) →
      s = pre ++ '(' :: (inner ++ ')' :: suf) ∧ ∀ c ∈ inner, notParen c = true := by
  induction s with
  | nil => intro pre inner suf h; simp [searchParen] at h
  | cons c cs ih =>
    intro pre inner suf h
    simp only [searchParen] at h
    rcases hm : matchParenAt (c :: cs) with _ | ⟨mi, mr⟩ <;> rw [hm] at h <;> dsimp only at h
    · rcases hs : searchParen cs with _ | ⟨p2, i2, s2⟩ <;> rw [hs] at h <;> dsimp only at h
      · simp at h
      · simp only [Option.some.injEq, Prod.mk.injEq] at h
        obtain ⟨h1, h2, h3⟩ := h
        subst h1 h2 h3
        obtain ⟨hd, hmem⟩ := ih p2 i2 s2 hs
        exact ⟨by rw [List.cons_append, ← hd], hmem⟩
    · simp only [Option.some.injEq, Prod.mk.injEq] at h
      obtain ⟨h1, h2, h3⟩ := h
      subst h1 h2 h3
      obtain ⟨hd, hmem⟩ := matchParenAt_eq (c :: cs) mi mr hm
      exact ⟨by rw [List.nil_append, hd], hmem⟩

/-- The leftmost paren match accounts for exactly one `'('` beyond those
of the surrounding text. -/
theorem searchParen_count (s pre inner suf : List Char)
    (h : searchParen s = some (pre, inner, suf)) :
    s.count '(' = pre.count '(' + suf.count '(' + 1 := by
  obtain ⟨hd, hmem⟩ := searchParen_eq s pre inner suf h
  have hz : inner.count '(' = 0 :=
    List.count_eq_zero.mpr (fun hc => by simpa [notParen] using hmem _ hc)
  rw [hd]
  simp [List.count_append, List.count_cons, hz]
  omega

/-- Every decimal digit character is distinct from both parentheses. -/
theorem digitChar_no_paren (k : ℕ) : digitChar k ≠ '(' ∧ digitChar k ≠ ')' := by
  unfold digitChar
  split <;> exact ⟨by decide, by decide⟩

/-- `natDigits` produces only digit characters, never parentheses. -/
theorem natDigits_no_paren (fuel : ℕ) : ∀ (n : ℕ) (c : Char), c ∈ natDigits fuel n →
    c ≠ '(' ∧ c ≠ ')' := by
  induction fuel with
  | zero => intro n c h; simp [natDigits] at h
  | succ f ih =>
    intro n c h
    unfold natDigits at h
    by_cases hn : n < 10
    · rw [if_pos hn] at h
      simp only [List.mem_singleton] at h
      subst h; exact digitChar_no_paren n
    · rw [if_neg hn] at h
      rcases List.mem_append.mp h with h1 | h2
      · exact ih _ _ h1
      · simp only [List.mem_singleton] at h2
        subst h2; exact digitChar_no_paren _

/-- `str` of an integer contains no parentheses. -/
theorem intStr_no_paren (r : ℤ) (c : Char) (h : c ∈ intStr r) :
    c ≠ '(' ∧ c ≠ ')' := by
  unfold intStr natStr at h
  by_cases hr : r < 0
  · rw [if_pos hr] at h
    rcases List.mem_cons.mp h with h1 | h2
    · subst h1; exact ⟨by decide, by decide⟩
    · exact natDigits_no_paren _ _ _ h2
  · rw [if_neg hr] at h
    exact natDigits_no_paren _ _ _ h

/-- The textual substitute `str(float(r))` contains no parentheses. -/
theorem floatIntStr_no_paren (r : ℤ) (c : Char) (h : c ∈ floatIntStr r) :
    c ≠ '(' ∧ c ≠ ')' := by
  unfold floatIntStr at h
  rcases List.mem_append.mp h with h1 | h2
  · exact intStr_no_paren r c h1
  · rcases List.mem_cons.mp h2 with h3 | h4
    · subst h3; exact ⟨by decide, by decide⟩
    · simp only [List.mem_singleton] at h4
      subst h4; exact ⟨by decide, by decide⟩

/-- With fuel exceeding the number of `'('` characters, the
parenthesis-reduction loop never exhausts its fuel: each iteration that
continues removes exactly one `'('` (the matched bracket is replaced
with parenthesis-free text), and every other branch exits the loop. -/
theorem parenLoop_ne_outOfFuel (svc : Service) :
    ∀ fuel expr st, expr.count '(' < fuel →
      parenLoop svc fuel expr st ≠ LoopOut.outOfFuel := by
  intro fuel
  induction fuel with
  | zero => intro expr st h; omega
  | succ n ih =>
    intro expr st h
    unfold parenLoop
    by_cases hin : '(' ∈ expr
    · rw [if_pos hin]
      rcases hsp : searchParen expr with _ | ⟨pre, inner, suf⟩ <;> (try dsimp only)
      · simp
      · have hc := searchParen_count expr pre inner suf hsp
        have hmem := (searchParen_eq expr pre inner suf hsp).2
        rcases hst : searchTriple (pyStrip inner) with _ | ⟨t1, ⟨aS, opC, bS⟩, t3⟩ <;>
          (try dsimp only)
        · apply ih
          have hz : (pyStrip inner).count '(' = 0 :=
            List.count_eq_zero.mpr fun hcm => by
              have hnp := hmem _ (pyStrip_mem _ _ hcm)
              simp [notParen] at hnp
          simp only [List.count_append, hz]
          omega
        · rcases hfa : pyFloat aS with _ | a <;> (try dsimp only)
          · simp
          rcases hfb : pyFloat bS with _ | b <;> (try dsimp only)
          · simp
          rcases hrl : (retryLoop svc opC a b MAX_RETRIES st).1 with _ | r <;>
            (try dsimp only)
          · simp
          · apply ih
            have hz : (floatIntStr r).count '(' = 0 :=
              List.count_eq_zero.mpr fun hcm => (floatIntStr_no_paren r _ hcm).1 rfl
            simp only [List.count_append, hz]
            omega
    · rw [if_neg hin]
      simp

/-- The code after the loop returns normally or raises; it never touches
the fuel mechanism. -/
theorem evalAfterLoop_ne_outOfFuel (svc : Service) (expr : List Char) (st : Metrics) :
    evalAfterLoop svc expr st ≠ PyResult.outOfFuel := by
  unfold evalAfterLoop
  rcases hst : searchTriple expr with _ | ⟨t1, ⟨aS, opC, bS⟩, t3⟩ <;> (try dsimp only)
  · rcases hf : pyFloat expr with _ | v <;> (try dsimp only) <;> simp
  · rcases hfa : pyFloat aS with _ | a <;> (try dsimp only)
    · simp
    rcases hfb : pyFloat bS with _ | b <;> (try dsimp only)
    · simp
    rcases hrl : (retryLoop svc opC a b MAX_RETRIES st).1 with _ | r <;>
      (try dsimp only) <;> simp

/-- Claim C10: for every input string, `evaluate_expression` terminates
provided every remote call returns (the oracle `Service` is total):
the fuelled loop never runs out of fuel, because each iteration of the
parenthesis-reduction loop either strictly decreases the number of `'('`
characters — the matched bracket is replaced by parenthesis-free text,
whether a triple was dispatched or only the parens were stripped — or
exits, and the code after the loop performs at most one bounded retry
loop.  The second conjunct states the strict decrease itself. -/
theorem c10_evaluation_terminates :
    (∀ (svc : Service) (e : String), evaluate_expression svc e ≠ PyResult.outOfFuel) ∧
    (∀ expr pre inner suf : List Char, searchParen expr = some (pre, inner, suf) →
      ∀ r : ℤ, (pre ++ floatIntStr r ++ suf).count '(' < expr.count '(' ∧
        (pre ++ pyStrip inner ++ suf).count '(' < expr.count '(') := by
  constructor
  · intro svc e
    unfold evaluate_expression
    rcases hp : parenLoop svc ((pyStrip e.data).count '(' + 1) (pyStrip e.data) initMetrics
        with ⟨e2, st⟩ | st | _ | _ <;> (try dsimp only)
    · exact evalAfterLoop_ne_outOfFuel svc e2 st
    · simp
    · simp
    · exact absurd hp (parenLoop_ne_outOfFuel svc _ _ _ (Nat.lt_succ_self _))
  · intro expr pre inner suf hsp r
    have hc := searchParen_count expr pre inner suf hsp
    have hmem := (searchParen_eq expr pre inner suf hsp).2
    have hz1 : (floatIntStr r).count '(' = 0 :=
      List.count_eq_zero.mpr fun hcm => (floatIntStr_no_paren r _ hcm).1 rfl
    have hz2 : (pyStrip inner).count '(' = 0 :=
      List.count_eq_zero.mpr fun hcm => by
        have hnp := hmem _ (pyStrip_mem _ _ hcm)
        simp [notParen] at hnp
    constructor <;> simp only [List.count_append, hz1, hz2] <;> omega

/-- Claim C10 witness: termination on "(2+3)" under the exact service,
and the strict `'('`-count decrease at its concrete bracket match. -/
theorem c10_evaluation_terminates_witness :
    evaluate_expression exactService "(2+3)" ≠ PyResult.outOfFuel ∧
    searchParen "(2+3)".data = some ([], "2+3".data, []) ∧
    (([] ++ floatIntStr 5 ++ []).count '(' < "(2+3)".data.count '(' ∧
     ([] ++ pyStrip "2+3".data ++ []).count '(' < "(2+3)".data.count '(') :=
  ⟨c10_evaluation_terminates.1 exactService "(2+3)",
   by with_unfolding_all rfl,
   c10_evaluation_terminates.2 "(2+3)".data [] "2+3".data []
     (by with_unfolding_all rfl) 5⟩
